import Mathlib

/-! Verification development for the color-palette extraction engine of
`seo-image-generator` (`src/lib/color_extractor.py`).

The Python module is shallowly embedded:

* the AggregateMap (`color_data` dict) is an insertion-ordered association
  list from hex keys to `ColorObservation` records;
* `_add_color` is `addColor`; the dual extraction of `_parse_colors` is
  `structuredPass` (tinycss2 walk, parameterised over an oracle
  `sp : String → Option (List StructEvent)` that models tokenisation by the
  external tinycss2/color3 libraries — `none` models a raised exception
  while tokenizing/parsing that CSS text) followed by `regexPass` (a faithful
  implementation of `re.findall` for the pattern
  `#(?:[0-9a-fA-F]\x7b3\x7d)\x7b1,2\x7d\b` over ASCII text);
* `_hex_to_rgb` / `_brightness` are `hexToRgb` / `brightness1000`
  (brightness is scaled by 1000 so that `0.299R + 0.587G + 0.114B > 240`
  becomes the exact integer comparison `299R + 587G + 114B > 240000`;
  this agrees with the double-precision evaluation of the Python source
  on every integer RGB triple at the 240 and 241 boundaries);
* `_categorize_colors` is `categorize`, with the per-color bucket decision
  factored out as `assign`; Python's stable `list.sort(key=lambda x: -x[1])`
  is the stable insertion sort `sortDescBy`;
* `extract_colors_from_url` splits into `fetchAllCss` (network layer,
  parameterised over an HTTP oracle and an HTML-parsing oracle) and the
  pure pipeline `extractFromCss`.
-/

/-- One value of the `color_data` dict of `_parse_colors`:
count plus property-name set. The Python `set` of property names is
modelled as an insertion-ordered duplicate-free list. -/
structure ColorObservation where
  count : Nat
  properties : List String
deriving Repr, DecidableEq

/-- The `color_data` dict: insertion-ordered map from normalized hex key to
observation (Python dicts preserve insertion order). -/
abbrev AggregateMap := List (String × ColorObservation)

/-! Character classes and ASCII lowercasing. -/

/-- Class `[0-9a-fA-F]`, the hex-digit class of the fallback regex. -/
def isHexDig (c : Char) : Bool :=
  (48 ≤ c.toNat && c.toNat ≤ 57) || (97 ≤ c.toNat && c.toNat ≤ 102) ||
    (65 ≤ c.toNat && c.toNat ≤ 70)

/-- Class `\w` (ASCII range), used for the regex word boundary `\b`. -/
def isWordChar (c : Char) : Bool :=
  (48 ≤ c.toNat && c.toNat ≤ 57) || (97 ≤ c.toNat && c.toNat ≤ 122) ||
    (65 ≤ c.toNat && c.toNat ≤ 90) || c.toNat = 95

/-- Class `[0-9a-f]`: a lowercase hex digit, as required of normalized keys. -/
def isLowerHex (c : Char) : Bool :=
  (48 ≤ c.toNat && c.toNat ≤ 57) || (97 ≤ c.toNat && c.toNat ≤ 102)

/-- Python `str.lower` on one ASCII character. -/
def lowerChar (c : Char) : Char :=
  if 65 ≤ c.toNat && c.toNat ≤ 90 then Char.ofNat (c.toNat + 32) else c

/-- Python `str.lower` (the module only lowercases ASCII hex/property text). -/
def lowerStr (s : String) : String := ⟨s.data.map lowerChar⟩

/-- Numeric value of a hex digit (`int(c, 16)`); junk characters give 0,
which only happens off the well-formed-key domain proved below. -/
def hexDigVal (c : Char) : Nat :=
  if 48 ≤ c.toNat && c.toNat ≤ 57 then c.toNat - 48
  else if 97 ≤ c.toNat && c.toNat ≤ 102 then c.toNat - 87
  else if 65 ≤ c.toNat && c.toNat ≤ 70 then c.toNat - 55
  else 0

/-! The aggregator, `_add_color`. -/

/-- Python `color_data[hex]["properties"].add(prop)`: set insertion. -/
def addProp (ps : List String) (p : String) : List String :=
  if p ∈ ps then ps else ps ++ [p]

/-- Insert/update on the association list at an already-lowercased key. -/
def addToMap (m : AggregateMap) (h p : String) : AggregateMap :=
  match m with
  | [] => [(h, ⟨1, [p]⟩)]
  | (k, o) :: rest =>
      if k = h then (k, ⟨o.count + 1, addProp o.properties p⟩) :: rest
      else (k, o) :: addToMap rest h p

/-- Source `_add_color(hex_color, prop)`: lowercase the key, create the entry on
first sight, increment the count, add the property tag. -/
def addColor (m : AggregateMap) (hexColor p : String) : AggregateMap :=
  addToMap m (lowerStr hexColor) p

/-! Structured pass: the tinycss2 walk of `_parse_colors`. -/

/-- One color hit of the tinycss2/color3 walk: the declaration's
`lower_name` (or `"unknown"`) and the three channel values
`int(parsed.red * 255)` etc. before the in-module clamping. -/
structure StructEvent where
  prop : String
  r : Int
  g : Int
  b : Int
deriving Repr, DecidableEq

/-- Clamping `max(0, min(255, v))` of the source, as a `Nat`. -/
def clamp255 (v : Int) : Nat := (max 0 (min 255 v)).toNat

/-- Formatting `f"\x7bn:02x\x7d"` for `n ≤ 255`. -/
def toHexByte (n : Nat) : List Char :=
  [Nat.digitChar (n / 16), Nat.digitChar (n % 16)]

/-- Formatting `f"#\x7br:02x\x7d\x7bg:02x\x7d\x7bb:02x\x7d"` with the source's clamping. -/
def formatHex (r g b : Int) : String :=
  ⟨'#' :: (toHexByte (clamp255 r) ++ toHexByte (clamp255 g) ++ toHexByte (clamp255 b))⟩

/-- First loop of `_parse_colors`: for each CSS text, run the tinycss2 walk
(the oracle `sp`); a raised exception (`sp t = none`) skips that text
(`except Exception: continue`), otherwise every event is accumulated. -/
def structuredPass (sp : String → Option (List StructEvent))
    (texts : List String) (m : AggregateMap) : AggregateMap :=
  texts.foldl
    (fun acc t =>
      match sp t with
      | none => acc
      | some evs => evs.foldl (fun m e => addColor m (formatHex e.r e.g e.b) e.prop) acc)
    m

/-! Regex fallback pass of `_parse_colors`. -/

/-- Boundary `\b` right after a run of hex digits: next char non-word or end. -/
def boundary (l : List Char) : Bool :=
  match l with
  | [] => true
  | c :: _ => !(isWordChar c)

/-- Python `re.findall(r"#(?:[0-9a-fA-F]\x7b3\x7d)\x7b1,2\x7d\b", s)`: at each `#`,
greedily try six hex digits then three, requiring the word boundary; on a
match resume after it, otherwise advance one character (structural on a
fuel argument so that the kernel can evaluate it). -/
def scanHexF : Nat → List Char → List String
  | 0, _ => []
  | _ + 1, [] => []
  | fuel + 1, c :: rest =>
      if c = '#' then
        if 6 ≤ (rest.takeWhile isHexDig).length then
          if boundary (rest.drop 6) then
            (⟨'#' :: (rest.takeWhile isHexDig).take 6⟩ : String) :: scanHexF fuel (rest.drop 6)
          else scanHexF fuel rest
        else if 3 ≤ (rest.takeWhile isHexDig).length then
          if boundary (rest.drop 3) then
            (⟨'#' :: (rest.takeWhile isHexDig).take 3⟩ : String) :: scanHexF fuel (rest.drop 3)
          else scanHexF fuel rest
        else scanHexF fuel rest
      else scanHexF fuel rest

/-- Entry point of the scan: every step consumes at least one character, so
fuel equal to the input length always suffices. -/
def scanHex (l : List Char) : List String := scanHexF l.length l

/-- Shorthand expansion: `if len(normalized) == 4: normalized = f"#\x7bn[1]*2\x7d\x7bn[2]*2\x7d\x7bn[3]*2\x7d"`. -/
def expandShort (s : String) : String :=
  if s.length = 4 then
    match s.data with
    | [_, a, b, c] => ⟨['#', a, a, b, b, c, c]⟩
    | _ => s
  else s

/-- Second loop of `_parse_colors`: regex findall over the raw text, lowercase,
expand 3-digit shorthand, accumulate under the `"regex"` tag. -/
def regexPass (texts : List String) (m : AggregateMap) : AggregateMap :=
  texts.foldl
    (fun acc t =>
      (scanHex t.data).foldl (fun m s => addColor m (expandShort (lowerStr s)) "regex") acc)
    m

/-- Source `_parse_colors(css_texts)`: structured pass over every text, then the
regex pass over every text, into one fresh aggregate. -/
def parseColors (sp : String → Option (List StructEvent))
    (texts : List String) : AggregateMap :=
  regexPass texts (structuredPass sp texts [])

/-! Brightness and classification: `_hex_to_rgb`, `_brightness`,
`_categorize_colors`. -/

/-- Source `_hex_to_rgb`: strip leading `#`s, read three hex byte pairs. -/
def hexToRgb (hexColor : String) : Nat × Nat × Nat :=
  let h := hexColor.data.dropWhile (fun c => c = '#')
  (hexDigVal (h.getD 0 ' ') * 16 + hexDigVal (h.getD 1 ' '),
   hexDigVal (h.getD 2 ' ') * 16 + hexDigVal (h.getD 3 ' '),
   hexDigVal (h.getD 4 ' ') * 16 + hexDigVal (h.getD 5 ' '))

/-- Source `_brightness` scaled by 1000: `0.299R + 0.587G + 0.114B` becomes the
exact integer `299R + 587G + 114B` (compare against thresholds × 1000). -/
def brightness1000 (hexColor : String) : Nat :=
  let rgb := hexToRgb hexColor
  299 * rgb.1 + 587 * rgb.2.1 + 114 * rgb.2.2

/-- The three provisional pools of `_categorize_colors`. -/
inductive Bucket where
  | bg
  | text
  | accent
deriving Repr, DecidableEq

/-- Python `any("background" in p for p in props)`: substring test on char lists. -/
def containsSub (hay needle : List Char) : Bool :=
  needle.isPrefixOf hay ||
    match hay with
    | [] => false
    | _ :: t => containsSub t needle

/-- Property-based rules of `_categorize_colors` (step reached only by
mid-brightness colors): background-substring properties, exact `color`,
otherwise accent. Returns the pool and the weight appended with the color. -/
def propertyAssign (hexColor : String) (o : ColorObservation) : Bucket × Nat :=
  let b := brightness1000 hexColor
  if o.properties.any (fun p => containsSub p.data "background".data) then
    if 200000 < b then (Bucket.bg, o.count) else (Bucket.accent, o.count * 2)
  else if o.properties.any (fun p => p = "color") then
    if b < 80000 then (Bucket.text, o.count) else (Bucket.accent, o.count)
  else (Bucket.accent, o.count)

/-- The whole per-color decision of the `_categorize_colors` loop body:
near-white (`brightness > 240`) is unconditionally background, near-black
(`brightness < 30`) unconditionally text, else the property rules. -/
def assign (hexColor : String) (o : ColorObservation) : Bucket × Nat :=
  let b := brightness1000 hexColor
  if 240000 < b then (Bucket.bg, o.count)
  else if b < 30000 then (Bucket.text, o.count)
  else propertyAssign hexColor o

/-- Stable insertion step for descending sort by a `Nat` key: an element is
placed before the first strictly-smaller key, after equal keys — the order
Python's stable `sort(key=lambda x: -key(x))` produces. -/
def insertDescBy {α : Type} (key : α → Nat) (x : α) : List α → List α
  | [] => [x]
  | y :: ys => if key y ≤ key x then x :: y :: ys else y :: insertDescBy key x ys

/-- Stable descending sort by a `Nat` key (Python `list.sort` / `sorted`). -/
def sortDescBy {α : Type} (key : α → Nat) (l : List α) : List α :=
  l.foldr (insertDescBy key) []

/-- Python `bg_colors[0][0] if bg_colors else default` and friends. -/
def pickAt (l : List (String × Nat)) (i : Nat) (dflt : String) : String :=
  ((l.get? i).map Prod.fst).getD dflt

/-- The five suggested roles. -/
structure Suggested where
  background : String
  text : String
  primary : String
  secondary : String
  accent : String
deriving Repr, DecidableEq

/-- The three weighted pools built by the loop of `_categorize_colors`,
in iteration (insertion) order. -/
def buckets (m : AggregateMap) :
    List (String × Nat) × List (String × Nat) × List (String × Nat) :=
  m.foldl
    (fun acc e =>
      match assign e.1 e.2 with
      | (Bucket.bg, w) => (acc.1 ++ [(e.1, w)], acc.2.1, acc.2.2)
      | (Bucket.text, w) => (acc.1, acc.2.1 ++ [(e.1, w)], acc.2.2)
      | (Bucket.accent, w) => (acc.1, acc.2.1, acc.2.2 ++ [(e.1, w)]))
    ([], [], [])

/-- Source `_categorize_colors(color_data)`: bucket every color, sort each pool by
descending weight, pick the winners with the documented defaults. -/
def categorize (m : AggregateMap) : Suggested :=
  let pools := buckets m
  let bgS := sortDescBy Prod.snd pools.1
  let textS := sortDescBy Prod.snd pools.2.1
  let accS := sortDescBy Prod.snd pools.2.2
  { background := pickAt bgS 0 "#ffffff"
    text := pickAt textS 0 "#1f2937"
    primary := pickAt accS 0 "#3b82f6"
    secondary := pickAt accS 1 "#10b981"
    accent := pickAt accS 2 "#f59e0b" }

/-! Ranker and the full pure pipeline. -/

/-- One entry of `all_colors`. -/
structure ColorEntry where
  hex : String
  count : Nat
  properties : List String
deriving Repr, DecidableEq

/-- List `all_colors` of `extract_colors_from_url`: entries sorted by
descending raw count (stable), truncated to `top_n`, `properties`
truncated to 5. -/
def allColors (m : AggregateMap) (topN : Nat) : List ColorEntry :=
  ((sortDescBy (fun e => e.2.count) m).take topN).map
    (fun e => ⟨e.1, e.2.count, e.2.properties.take 5⟩)

/-- The output structure of `extract_colors_from_url`. -/
structure PaletteResult where
  suggested : Suggested
  all_colors : List ColorEntry
deriving Repr, DecidableEq

/-- The pure part of `extract_colors_from_url`, from the fetched CSS texts. -/
def extractFromCss (sp : String → Option (List StructEvent))
    (texts : List String) (topN : Nat) : PaletteResult :=
  let m := parseColors sp texts
  ⟨categorize m, allColors m topN⟩

/-! Source fetcher: `_fetch_all_css` and `extract_colors_from_url`. -/

/-- What BeautifulSoup extracts from the fetched HTML: the `.string` of each
`<style>` tag (possibly `None`), the `href` of each
`<link rel="stylesheet">` (possibly absent), and each inline `style`
attribute value, in document order. -/
structure Page where
  styleContents : List (Option String)
  stylesheetHrefs : List (Option String)
  inlineStyles : List String

/-- The CSS-text list built from a parsed page: `<style>` contents (Python
`if style_tag.string:` also drops empty strings), linked stylesheets with
per-link failures swallowed (`except RequestException: continue`; Python
`if href:` drops absent and empty hrefs), then synthesized
`dummy { ... }` sources for inline style attributes. `httpGet` models
`requests.get` + `raise_for_status` (an `error` is a network error or
non-2xx status); `resolve` models `urljoin`. -/
def cssFromPage (httpGet : String → Except String String)
    (resolve : String → String → String) (url : String) (page : Page) :
    List String :=
  let styles := page.styleContents.filterMap
    (fun s => s.bind (fun t => if t = "" then none else some t))
  let linked := page.stylesheetHrefs.filterMap
    (fun h =>
      match h with
      | none => none
      | some href =>
          if href = "" then none
          else
            match httpGet (resolve url href) with
            | Except.ok body => some body
            | Except.error _ => none)
  let inl := page.inlineStyles.map (fun s => "dummy \x7b " ++ s ++ " \x7d")
  styles ++ linked ++ inl

/-- Source `_fetch_all_css(url)`: fetch the page — a failure raises
`ConnectionError` with the formatted cause — else collect the three
CSS source categories. `parseHtml` models BeautifulSoup. -/
def fetchAllCss (httpGet : String → Except String String)
    (parseHtml : String → Page) (resolve : String → String → String)
    (url : String) : Except String (List String) :=
  match httpGet url with
  | Except.error e => Except.error ("URLの取得に失敗しました: " ++ e)
  | Except.ok body => Except.ok (cssFromPage httpGet resolve url (parseHtml body))

/-- Source `extract_colors_from_url(url, top_n)`: fetch, then the pure pipeline. -/
def extractColorsFromUrl (httpGet : String → Except String String)
    (parseHtml : String → Page) (resolve : String → String → String)
    (sp : String → Option (List StructEvent)) (url : String) (topN : Nat) :
    Except String PaletteResult :=
  (fetchAllCss httpGet parseHtml resolve url).map
    (fun texts => extractFromCss sp texts topN)

/-! Concrete structured oracle for the scenario claims. -/

/-- Whitespace for trimming/tokenizing declaration text. -/
def isSpaceChar (c : Char) : Bool :=
  c = ' ' || c = '\n' || c = '\t' || c = '\r'

/-- Remove every CSS comment from the character stream, one structural pass
with an in-comment flag. -/
def stripCommentsAux : Bool → List Char → List Char
  | _, [] => []
  | false, '/' :: '*' :: rest => stripCommentsAux true rest
  | false, c :: rest => c :: stripCommentsAux false rest
  | true, '*' :: '/' :: rest => stripCommentsAux false rest
  | true, _ :: rest => stripCommentsAux true rest

/-- Remove every CSS comment (an unclosed comment runs to the end). -/
def stripComments (l : List Char) : List Char := stripCommentsAux false l

/-- Split the stylesheet into the brace-delimited rule bodies, one structural
pass; `some acc` carries the reversed current body. An unclosed body runs to
the end of input. -/
def ruleBodiesAux : Option (List Char) → List Char → List (List Char)
  | none, [] => []
  | some acc, [] => [acc.reverse]
  | none, '{' :: rest => ruleBodiesAux (some []) rest
  | none, _ :: rest => ruleBodiesAux none rest
  | some acc, '}' :: rest => acc.reverse :: ruleBodiesAux none rest
  | some acc, c :: rest => ruleBodiesAux (some (c :: acc)) rest

/-- Rule bodies of a stylesheet. -/
def ruleBodies (l : List Char) : List (List Char) := ruleBodiesAux none l

/-- Split a character list on a separator character. -/
def splitOnChar (sep : Char) : List Char → List (List Char)
  | [] => [[]]
  | c :: rest =>
      if c = sep then [] :: splitOnChar sep rest
      else
        match splitOnChar sep rest with
        | [] => [[c]]
        | g :: gs => (c :: g) :: gs

/-- Split a declaration at its first `:` into name and value. -/
def splitColon : List Char → Option (List Char × List Char)
  | [] => none
  | ':' :: rest => some ([], rest)
  | c :: rest => (splitColon rest).map (fun p => (c :: p.1, p.2))

/-- Strip surrounding whitespace. -/
def trimChars (l : List Char) : List Char :=
  ((l.dropWhile isSpaceChar).reverse.dropWhile isSpaceChar).reverse

/-- Whitespace-separated tokens of a declaration value. -/
def wordsOf (l : List Char) : List (List Char) :=
  (splitOnChar ' ' (l.map (fun c => if isSpaceChar c then ' ' else c))).filter
    (fun w => !w.isEmpty)

/-- A hex color token as color3 resolves it: `#rrggbb` or `#rgb` (shorthand
expands digit-by-digit), yielding the exact channel bytes. -/
def parseHexToken (t : List Char) : Option (Int × Int × Int) :=
  match t with
  | '#' :: ds =>
      if ds.length = 6 ∧ ds.all isHexDig then
        some (Int.ofNat (hexDigVal (ds.getD 0 ' ') * 16 + hexDigVal (ds.getD 1 ' ')),
              Int.ofNat (hexDigVal (ds.getD 2 ' ') * 16 + hexDigVal (ds.getD 3 ' ')),
              Int.ofNat (hexDigVal (ds.getD 4 ' ') * 16 + hexDigVal (ds.getD 5 ' ')))
      else if ds.length = 3 ∧ ds.all isHexDig then
        some (Int.ofNat (hexDigVal (ds.getD 0 ' ') * 17),
              Int.ofNat (hexDigVal (ds.getD 1 ' ') * 17),
              Int.ofNat (hexDigVal (ds.getD 2 ' ') * 17))
      else none
  | _ => none

/-- Modelled from the spec: the structured pass's tokenizer/parser is the
external tinycss2/color3 library, absent from `src/`. Per §4.3 it splits
each CSS text into rules and declaration lists with comments skipped, takes
each declaration's lowercased name, and parses every value token with the
Color Value Parser; hex literals (the only color syntax appearing in the
spec's scenarios) resolve to their exact RGB bytes. These well-formed
scenario inputs parse without exception, so the result is always `some`. -/
def tinyStruct (css : String) : Option (List StructEvent) :=
  some <|
    (ruleBodies (stripComments css.data)).flatMap fun body =>
      (splitOnChar ';' body).flatMap fun decl =>
        match splitColon decl with
        | none => []
        | some (name, value) =>
            let prop := lowerStr ⟨trimChars name⟩
            (wordsOf value).filterMap fun tok =>
              (parseHexToken tok).map fun rgb => ⟨prop, rgb.1, rgb.2.1, rgb.2.2⟩

/-! Normalized-key well-formedness. -/

/-- Pattern `^#[0-9a-f]\x7b6\x7d$` on a character list. -/
def wellFormedKeyL (d : List Char) : Bool :=
  match d with
  | '#' :: ds => ds.length == 6 && ds.all isLowerHex
  | _ => false

/-- A normalized hex key: exactly `#` followed by six lowercase hex digits. -/
def wellFormedKey (s : String) : Bool := wellFormedKeyL s.data

/-! Helper lemmas. -/

theorem toNat_ofNat_valid (n : Nat) (h : n < 55296) : (Char.ofNat n).toNat = n := by
  have hv : n.isValidChar := Or.inl h
  simp [Char.ofNat, hv, Char.ofNatAux, Char.toNat, UInt32.toNat, UInt32.ofNat']

theorem lowerChar_of_lowerHex {c : Char} (h : isLowerHex c = true) : lowerChar c = c := by
  unfold isLowerHex at h
  unfold lowerChar
  simp only [Bool.or_eq_true, Bool.and_eq_true, decide_eq_true_eq] at h
  rw [if_neg]
  simp only [Bool.and_eq_true, decide_eq_true_eq, not_and]
  omega

theorem lowerChar_of_hexDig {c : Char} (h : isHexDig c = true) :
    isLowerHex (lowerChar c) = true := by
  unfold isHexDig at h
  unfold lowerChar isLowerHex
  simp only [Bool.or_eq_true, Bool.and_eq_true, decide_eq_true_eq] at h
  by_cases hc : 65 ≤ c.toNat ∧ c.toNat ≤ 90
  · rw [if_pos (by simp only [Bool.and_eq_true, decide_eq_true_eq]; exact hc)]
    rw [toNat_ofNat_valid (c.toNat + 32) (by omega)]
    simp only [Bool.or_eq_true, Bool.and_eq_true, decide_eq_true_eq]
    omega
  · rw [if_neg (by simp only [Bool.and_eq_true, decide_eq_true_eq]; exact hc)]
    simp only [Bool.or_eq_true, Bool.and_eq_true, decide_eq_true_eq]
    omega

theorem map_lowerChar_of_lowerHex :
    ∀ ds : List Char, ds.all isLowerHex = true → ds.map lowerChar = ds := by
  intro ds h
  induction ds with
  | nil => rfl
  | cons c t ih =>
      simp only [List.all_cons, Bool.and_eq_true] at h
      simp [lowerChar_of_lowerHex h.1, ih h.2]

theorem lowerStr_of_wellFormed {s : String} (h : wellFormedKey s = true) :
    lowerStr s = s := by
  obtain ⟨d⟩ := s
  unfold wellFormedKey wellFormedKeyL at h
  split at h
  · rename_i ds heq
    rw [show ({ data := d } : String).data = d from rfl] at heq
    subst heq
    simp only [Bool.and_eq_true, beq_iff_eq] at h
    unfold lowerStr
    show String.mk (('#' :: ds).map lowerChar) = String.mk ('#' :: ds)
    rw [List.map_cons, map_lowerChar_of_lowerHex ds h.2]
    rfl
  · exact absurd h (by simp)

theorem digitChar_lowerHex : ∀ n : Nat, n < 16 → isLowerHex (Nat.digitChar n) = true := by
  decide

theorem clamp255_le (v : Int) : clamp255 v ≤ 255 := by
  unfold clamp255
  omega

theorem wellFormed_formatHex (r g b : Int) : wellFormedKey (formatHex r g b) = true := by
  unfold formatHex wellFormedKey toHexByte
  have h1 := clamp255_le r
  have h2 := clamp255_le g
  have h3 := clamp255_le b
  simp only [wellFormedKeyL, List.cons_append, List.nil_append, List.all_cons, List.all_nil,
    List.length_cons, List.length_nil, Bool.and_eq_true, beq_iff_eq, Bool.and_true]
  refine ⟨trivial, ?_, ?_, ?_, ?_, ?_, ?_⟩ <;> apply digitChar_lowerHex <;> omega

theorem scanHexF_shape (fuel : Nat) :
    ∀ (l : List Char), ∀ s ∈ scanHexF fuel l, ∃ ds, s.data = '#' :: ds ∧
      ds.all isHexDig = true ∧ (ds.length = 3 ∨ ds.length = 6) := by
  induction fuel with
  | zero =>
      intro l s hs
      simp [scanHexF] at hs
  | succ f ih =>
      intro l s hs
      cases l with
      | nil => simp [scanHexF] at hs
      | cons c rest =>
          simp only [scanHexF] at hs
          by_cases hc : c = '#'
          · rw [if_pos hc] at hs
            by_cases h6 : 6 ≤ (rest.takeWhile isHexDig).length
            · rw [if_pos h6] at hs
              by_cases hb : boundary (rest.drop 6) = true
              · rw [if_pos hb] at hs
                rcases List.mem_cons.mp hs with hs | hs
                · refine ⟨(rest.takeWhile isHexDig).take 6, by rw [hs], ?_, Or.inr ?_⟩
                  · rw [List.all_eq_true]
                    intro x hx
                    exact List.mem_takeWhile_imp (List.take_subset _ _ hx)
                  · rw [List.length_take]
                    omega
                · exact ih _ s hs
              · rw [if_neg hb] at hs
                exact ih _ s hs
            · rw [if_neg h6] at hs
              by_cases h3 : 3 ≤ (rest.takeWhile isHexDig).length
              · rw [if_pos h3] at hs
                by_cases hb : boundary (rest.drop 3) = true
                · rw [if_pos hb] at hs
                  rcases List.mem_cons.mp hs with hs | hs
                  · refine ⟨(rest.takeWhile isHexDig).take 3, by rw [hs], ?_, Or.inl ?_⟩
                    · rw [List.all_eq_true]
                      intro x hx
                      exact List.mem_takeWhile_imp (List.take_subset _ _ hx)
                    · rw [List.length_take]
                      omega
                  · exact ih _ s hs
                · rw [if_neg hb] at hs
                  exact ih _ s hs
              · rw [if_neg h3] at hs
                exact ih _ s hs
          · rw [if_neg hc] at hs
            exact ih _ s hs

theorem scanHex_shape (l : List Char) :
    ∀ s ∈ scanHex l, ∃ ds, s.data = '#' :: ds ∧ ds.all isHexDig = true ∧
      (ds.length = 3 ∨ ds.length = 6) :=
  scanHexF_shape l.length l

theorem wellFormed_regexKey {s : String}
    (hs : ∃ ds, s.data = '#' :: ds ∧ ds.all isHexDig = true ∧
      (ds.length = 3 ∨ ds.length = 6)) :
    wellFormedKey (expandShort (lowerStr s)) = true := by
  obtain ⟨ds, hd, hall, hlen⟩ := hs
  have hlow : lowerStr s = ⟨'#' :: ds.map lowerChar⟩ := by
    unfold lowerStr
    rw [hd, List.map_cons, show lowerChar '#' = '#' by decide]
  have hall2 : (ds.map lowerChar).all isLowerHex = true := by
    rw [List.all_eq_true] at hall ⊢
    intro x hx
    obtain ⟨y, hy, rfl⟩ := List.mem_map.mp hx
    exact lowerChar_of_hexDig (hall y hy)
  rcases hlen with h3 | h6
  · obtain ⟨a, b, c, rfl⟩ := List.length_eq_three.mp h3
    rw [hlow]
    unfold expandShort
    rw [if_pos (by simp [String.length])]
    simp only [List.map_cons, List.map_nil] at hall2 ⊢
    simp only [List.all_cons, List.all_nil, Bool.and_eq_true, Bool.and_true] at hall2
    unfold wellFormedKey wellFormedKeyL
    simp [hall2.1, hall2.2.1, hall2.2.2]
  · rw [hlow]
    unfold expandShort
    rw [if_neg (by simp [String.length, h6])]
    unfold wellFormedKey wellFormedKeyL
    simp [hall2, h6]

theorem mem_addToMap (m : AggregateMap) (h p : String) (a : String × ColorObservation)
    (ha : a ∈ addToMap m h p) : a.1 = h ∨ a.1 ∈ m.map Prod.fst := by
  induction m with
  | nil =>
      simp only [addToMap, List.mem_singleton] at ha
      subst ha
      exact Or.inl rfl
  | cons e rest ih =>
      obtain ⟨k, o⟩ := e
      by_cases hk : k = h
      · simp only [addToMap, if_pos hk] at ha
        rcases List.mem_cons.mp ha with ha | ha
        · subst ha
          exact Or.inl hk
        · exact Or.inr (List.mem_map.mpr ⟨a, List.mem_cons_of_mem _ ha, rfl⟩)
      · simp only [addToMap, if_neg hk] at ha
        rcases List.mem_cons.mp ha with ha | ha
        · subst ha
          exact Or.inr (by simp)
        · rcases ih ha with hh | hh
          · exact Or.inl hh
          · exact Or.inr (by simp only [List.map_cons, List.mem_cons]; exact Or.inr hh)

theorem keys_addToMap (m : AggregateMap) (h p : String) :
    (addToMap m h p).map Prod.fst =
      if h ∈ m.map Prod.fst then m.map Prod.fst else m.map Prod.fst ++ [h] := by
  induction m with
  | nil => simp [addToMap]
  | cons e rest ih =>
      obtain ⟨k, o⟩ := e
      by_cases hk : k = h
      · subst hk
        simp [addToMap]
      · simp only [addToMap, if_neg hk, List.map_cons, ih, List.mem_cons]
        by_cases hmem : h ∈ rest.map Prod.fst
        · rw [if_pos hmem, if_pos (Or.inr hmem)]
        · rw [if_neg hmem, if_neg (by rintro (hc | hc); exact hk hc.symm; exact hmem hc)]
          simp

theorem nodup_keys_addToMap (m : AggregateMap) (h p : String)
    (hm : (m.map Prod.fst).Nodup) : ((addToMap m h p).map Prod.fst).Nodup := by
  rw [keys_addToMap]
  split
  · exact hm
  · rename_i hmem
    rw [List.nodup_append]
    exact ⟨hm, List.nodup_singleton h,
      fun x hx hx2 => hmem (by rwa [List.mem_singleton.mp hx2] at hx)⟩

theorem good_addToMap (m : AggregateMap) (h p : String)
    (hw : wellFormedKey h = true)
    (hm : (∀ a ∈ m, wellFormedKey a.1 = true) ∧ (m.map Prod.fst).Nodup) :
    (∀ a ∈ addToMap m h p, wellFormedKey a.1 = true) ∧
      ((addToMap m h p).map Prod.fst).Nodup := by
  refine ⟨?_, nodup_keys_addToMap m h p hm.2⟩
  intro a ha
  rcases mem_addToMap m h p a ha with hh | hh
  · rw [hh]
    exact hw
  · obtain ⟨b, hb, hb2⟩ := List.mem_map.mp hh
    rw [← hb2]
    exact hm.1 b hb

theorem foldl_preserve {β α : Type} (P : β → Prop) (f : β → α → β) :
    ∀ (l : List α) (b : β), (∀ b2 a, a ∈ l → P b2 → P (f b2 a)) → P b →
      P (l.foldl f b) := by
  intro l
  induction l with
  | nil =>
      intro b _ hb
      exact hb
  | cons x t ih =>
      intro b hf hb
      exact ih (f b x)
        (fun b2 a ha hb2 => hf b2 a (List.mem_cons_of_mem _ ha) hb2)
        (hf b x (List.mem_cons_self _ _) hb)

theorem good_addColor (m : AggregateMap) (hx p2 : String)
    (hw : wellFormedKey (lowerStr hx) = true)
    (hm : (∀ a ∈ m, wellFormedKey a.1 = true) ∧ (m.map Prod.fst).Nodup) :
    (∀ a ∈ addColor m hx p2, wellFormedKey a.1 = true) ∧
      ((addColor m hx p2).map Prod.fst).Nodup :=
  good_addToMap m (lowerStr hx) p2 hw hm

theorem structEvents_fold_good (evs : List StructEvent) :
    ∀ (m : AggregateMap),
      ((∀ a ∈ m, wellFormedKey a.1 = true) ∧ (m.map Prod.fst).Nodup) →
      ((∀ a ∈ evs.foldl (fun m e => addColor m (formatHex e.r e.g e.b) e.prop) m,
          wellFormedKey a.1 = true) ∧
        ((evs.foldl (fun m e => addColor m (formatHex e.r e.g e.b) e.prop) m).map
            Prod.fst).Nodup) := by
  induction evs with
  | nil =>
      intro m hm
      exact hm
  | cons e t ih =>
      intro m hm
      rw [List.foldl_cons]
      refine ih _ (good_addColor m _ e.prop ?_ hm)
      rw [lowerStr_of_wellFormed (wellFormed_formatHex e.r e.g e.b)]
      exact wellFormed_formatHex e.r e.g e.b

theorem structuredPass_good (sp : String → Option (List StructEvent)) :
    ∀ (ts : List String) (m : AggregateMap),
      ((∀ a ∈ m, wellFormedKey a.1 = true) ∧ (m.map Prod.fst).Nodup) →
      ((∀ a ∈ structuredPass sp ts m, wellFormedKey a.1 = true) ∧
        ((structuredPass sp ts m).map Prod.fst).Nodup) := by
  intro ts
  induction ts with
  | nil =>
      intro m hm
      exact hm
  | cons t ts2 ih =>
      intro m hm
      cases hsp : sp t with
      | none =>
          have he : structuredPass sp (t :: ts2) m = structuredPass sp ts2 m := by
            unfold structuredPass
            rw [List.foldl_cons]
            simp only [hsp]
          rw [he]
          exact ih m hm
      | some evs =>
          have he : structuredPass sp (t :: ts2) m =
              structuredPass sp ts2
                (evs.foldl (fun m e => addColor m (formatHex e.r e.g e.b) e.prop) m) := by
            unfold structuredPass
            rw [List.foldl_cons]
            simp only [hsp]
          rw [he]
          exact ih _ (structEvents_fold_good evs m hm)

theorem regexMatches_fold_good (ms : List String) :
    ∀ (hshape : ∀ s ∈ ms, ∃ ds, s.data = '#' :: ds ∧ ds.all isHexDig = true ∧
        (ds.length = 3 ∨ ds.length = 6))
      (m : AggregateMap),
      ((∀ a ∈ m, wellFormedKey a.1 = true) ∧ (m.map Prod.fst).Nodup) →
      ((∀ a ∈ ms.foldl (fun m s => addColor m (expandShort (lowerStr s)) "regex") m,
          wellFormedKey a.1 = true) ∧
        ((ms.foldl (fun m s => addColor m (expandShort (lowerStr s)) "regex") m).map
            Prod.fst).Nodup) := by
  induction ms with
  | nil =>
      intro _ m hm
      exact hm
  | cons s t ih =>
      intro hsh m hm
      rw [List.foldl_cons]
      refine ih (fun x hx => hsh x (List.mem_cons_of_mem _ hx)) _
        (good_addColor m _ "regex" ?_ hm)
      have hshape := hsh s (List.mem_cons_self _ _)
      rw [lowerStr_of_wellFormed (wellFormed_regexKey hshape)]
      exact wellFormed_regexKey hshape

theorem regexPass_good :
    ∀ (ts : List String) (m : AggregateMap),
      ((∀ a ∈ m, wellFormedKey a.1 = true) ∧ (m.map Prod.fst).Nodup) →
      ((∀ a ∈ regexPass ts m, wellFormedKey a.1 = true) ∧
        ((regexPass ts m).map Prod.fst).Nodup) := by
  intro ts
  induction ts with
  | nil =>
      intro m hm
      exact hm
  | cons t ts2 ih =>
      intro m hm
      have he : regexPass (t :: ts2) m =
          regexPass ts2
            ((scanHex t.data).foldl
              (fun m s => addColor m (expandShort (lowerStr s)) "regex") m) := by
        unfold regexPass
        rw [List.foldl_cons]
      rw [he]
      exact ih _ (regexMatches_fold_good (scanHex t.data) (scanHex_shape t.data) m hm)

theorem parseColors_good (sp : String → Option (List StructEvent))
    (texts : List String) :
    (∀ a ∈ parseColors sp texts, wellFormedKey a.1 = true) ∧
      ((parseColors sp texts).map Prod.fst).Nodup := by
  unfold parseColors
  exact regexPass_good texts _
    (structuredPass_good sp texts [] ⟨by simp, by simp⟩)

theorem mem_insertDescBy {α : Type} (key : α → Nat) (x y : α) (l : List α) :
    y ∈ insertDescBy key x l ↔ y = x ∨ y ∈ l := by
  induction l with
  | nil => simp [insertDescBy]
  | cons z t ih =>
      unfold insertDescBy
      split
      · simp
      · rw [List.mem_cons, List.mem_cons, ih]
        tauto

theorem mem_sortDescBy {α : Type} (key : α → Nat) (l : List α) (y : α) :
    y ∈ sortDescBy key l ↔ y ∈ l := by
  induction l with
  | nil => simp [sortDescBy]
  | cons z t ih =>
      unfold sortDescBy at ih ⊢
      rw [List.foldr_cons, mem_insertDescBy, ih, List.mem_cons]

theorem sorted_insertDescBy {α : Type} (key : α → Nat) (x : α) (l : List α)
    (hl : l.Pairwise (fun a b => key b ≤ key a)) :
    (insertDescBy key x l).Pairwise (fun a b => key b ≤ key a) := by
  induction l with
  | nil => simp [insertDescBy]
  | cons z t ih =>
      rw [List.pairwise_cons] at hl
      unfold insertDescBy
      split
      · rename_i hz
        rw [List.pairwise_cons]
        refine ⟨?_, List.Pairwise.cons hl.1 hl.2⟩
        intro b hb
        rcases List.mem_cons.mp hb with hb | hb
        · rw [hb]
          exact hz
        · exact le_trans (hl.1 b hb) hz
      · rename_i hz
        rw [List.pairwise_cons]
        refine ⟨?_, ih hl.2⟩
        intro b hb
        rcases (mem_insertDescBy key x b t).mp hb with hb | hb
        · rw [hb]
          omega
        · exact hl.1 b hb

theorem sorted_sortDescBy {α : Type} (key : α → Nat) (l : List α) :
    (sortDescBy key l).Pairwise (fun a b => key b ≤ key a) := by
  induction l with
  | nil => simp [sortDescBy]
  | cons z t ih => exact sorted_insertDescBy key z _ ih

theorem buckets_keys (m : AggregateMap) :
    (∀ x ∈ (buckets m).1, x.1 ∈ m.map Prod.fst) ∧
      (∀ x ∈ (buckets m).2.1, x.1 ∈ m.map Prod.fst) ∧
      (∀ x ∈ (buckets m).2.2, x.1 ∈ m.map Prod.fst) := by
  unfold buckets
  suffices h : ∀ (l : List (String × ColorObservation))
      (acc : List (String × Nat) × List (String × Nat) × List (String × Nat))
      (S : List String),
      (∀ x ∈ acc.1, x.1 ∈ S) → (∀ x ∈ acc.2.1, x.1 ∈ S) → (∀ x ∈ acc.2.2, x.1 ∈ S) →
      (∀ e ∈ l, e.1 ∈ S) →
      ((∀ x ∈ (l.foldl
          (fun acc e =>
            match assign e.1 e.2 with
            | (Bucket.bg, w) => (acc.1 ++ [(e.1, w)], acc.2.1, acc.2.2)
            | (Bucket.text, w) => (acc.1, acc.2.1 ++ [(e.1, w)], acc.2.2)
            | (Bucket.accent, w) => (acc.1, acc.2.1, acc.2.2 ++ [(e.1, w)])) acc).1,
          x.1 ∈ S) ∧
        (∀ x ∈ (l.foldl _ acc).2.1, x.1 ∈ S) ∧
        (∀ x ∈ (l.foldl _ acc).2.2, x.1 ∈ S)) by
    exact h m ([], [], []) (m.map Prod.fst) (by simp) (by simp) (by simp)
      (fun e he => List.mem_map.mpr ⟨e, he, rfl⟩)
  intro l
  induction l with
  | nil =>
      intro acc S h1 h2 h3 _
      exact ⟨h1, h2, h3⟩
  | cons e t ih =>
      intro acc S h1 h2 h3 hl
      rw [List.foldl_cons]
      have hkey : e.1 ∈ S := hl e (List.mem_cons_self _ _)
      have hl2 : ∀ x ∈ t, x.1 ∈ S := fun x hx => hl x (List.mem_cons_of_mem _ hx)
      cases has : assign e.1 e.2 with
      | mk b w =>
          cases b with
          | bg =>
              simp only [has]
              refine ih _ S ?_ h2 h3 hl2
              intro x hx
              rcases List.mem_append.mp hx with hx | hx
              · exact h1 x hx
              · rw [List.mem_singleton.mp hx]
                exact hkey
          | text =>
              simp only [has]
              refine ih _ S h1 ?_ h3 hl2
              intro x hx
              rcases List.mem_append.mp hx with hx | hx
              · exact h2 x hx
              · rw [List.mem_singleton.mp hx]
                exact hkey
          | accent =>
              simp only [has]
              refine ih _ S h1 h2 ?_ hl2
              intro x hx
              rcases List.mem_append.mp hx with hx | hx
              · exact h3 x hx
              · rw [List.mem_singleton.mp hx]
                exact hkey

theorem pickAt_mem_or_default (l : List (String × Nat)) (i : Nat) (d : String) :
    (∃ x ∈ l, pickAt l i d = x.1) ∨ pickAt l i d = d := by
  unfold pickAt
  cases hg : l.get? i with
  | none => exact Or.inr rfl
  | some x => exact Or.inl ⟨x, List.get?_mem hg, rfl⟩

/-! Claim theorems. -/

/-- C1 (counterexample): for the CSS text `a{color:#ff0000;}/* #ff0000 */` —
which contains both the declaration `color:#ff0000;` and the literal substring
`#ff0000` inside an unrelated comment — the aggregated count for `#ff0000` is
3, not 2 as the claim states: the regex pass matches the hex literal in the
declaration as well as the one in the comment, and the structured pass adds a
third observation. -/
theorem scenarioC_count_not_two :
    ((parseColors tinyStruct ["a\x7bcolor:#ff0000;\x7d/* #ff0000 */"]).lookup
        "#ff0000").map ColorObservation.count = some 3 ∧
      ¬ ((parseColors tinyStruct ["a\x7bcolor:#ff0000;\x7d/* #ff0000 */"]).lookup
          "#ff0000").map ColorObservation.count = some 2 := by
  decide

/-- C1 (amended): for a CSS text containing both the declaration
`color:#ff0000;` and the literal substring `#ff0000` inside an unrelated
comment, the aggregated count for key `#ff0000` after both extraction passes
is exactly 3 — the structured pass contributes 1 and the regex pass 2, since
the regex scan of the raw text matches the declaration literal too — and its
property set is exactly \x7b"color", "regex"\x7d. -/
theorem scenarioC_count_three :
    (parseColors tinyStruct ["a\x7bcolor:#ff0000;\x7d/* #ff0000 */"]).lookup
        "#ff0000" = some ⟨3, ["color", "regex"]⟩ := by
  decide

/-- C2: an exception while tokenizing/parsing one CSS text (`sp t = none`)
aborts only that text's structured pass: the remaining texts are still
processed and the failed text contributes no accumulation event to the
structured pass. -/
theorem structuredPass_skips_failed_text
    (sp : String → Option (List StructEvent)) (ts1 ts2 : List String)
    (t : String) (m : AggregateMap) (h : sp t = none) :
    structuredPass sp (ts1 ++ t :: ts2) m = structuredPass sp (ts1 ++ ts2) m := by
  induction ts1 generalizing m with
  | nil =>
      have he : structuredPass sp (t :: ts2) m = structuredPass sp ts2 m := by
        unfold structuredPass
        rw [List.foldl_cons]
        simp only [h]
      simpa using he
  | cons x ts ih =>
      have hstep : ∀ (l : List String) (m2 : AggregateMap),
          structuredPass sp (x :: l) m2 = structuredPass sp l (structuredPass sp [x] m2) := by
        intro l m2
        unfold structuredPass
        rw [List.foldl_cons, List.foldl_cons, List.foldl_nil]
      simp only [List.cons_append]
      rw [hstep (ts ++ t :: ts2) m, ih, ← hstep (ts ++ ts2) m]

/-- C2 witness at a concrete failing oracle and text list. -/
theorem structuredPass_skips_failed_text_witness :
    (fun _ : String => (none : Option (List StructEvent))) "bad" = none ∧
      structuredPass (fun _ => none) (["a"] ++ "bad" :: ["b"]) [] =
        structuredPass (fun _ => none) (["a"] ++ ["b"]) [] :=
  ⟨rfl, structuredPass_skips_failed_text (fun _ => none) ["a"] ["b"] "bad" [] rfl⟩

/-- C3: when both passes produce zero color events (empty AggregateMap), the
result is a valid non-error value whose `suggested` is exactly the documented
default palette and whose `all_colors` is empty. -/
theorem zero_colors_yields_defaults (sp : String → Option (List StructEvent))
    (texts : List String) (n : Nat) (h : parseColors sp texts = []) :
    extractFromCss sp texts n =
      ⟨⟨"#ffffff", "#1f2937", "#3b82f6", "#10b981", "#f59e0b"⟩, []⟩ := by
  have h2 : allColors [] n = [] := by
    unfold allColors sortDescBy
    simp
  simp only [extractFromCss, h, h2]
  rfl

/-- C3 witness: colorless CSS under a failing structured oracle. -/
theorem zero_colors_yields_defaults_witness :
    parseColors (fun _ => none) ["p \x7b margin: 0 \x7d"] = [] ∧
      extractFromCss (fun _ => none) ["p \x7b margin: 0 \x7d"] 20 =
        ⟨⟨"#ffffff", "#1f2937", "#3b82f6", "#10b981", "#f59e0b"⟩, []⟩ :=
  ⟨rfl, zero_colors_yields_defaults (fun _ => none) ["p \x7b margin: 0 \x7d"] 20 rfl⟩

/-- C4: every key of the AggregateMap produced by `_parse_colors` matches
`^#[0-9a-f]\x7b6\x7d$` (7 characters, lowercase, shorthand already expanded),
and keys are unique — spellings normalizing to the same key share one entry. -/
theorem aggregate_keys_normalized (sp : String → Option (List StructEvent))
    (texts : List String) (k : String) (o : ColorObservation)
    (hmem : (k, o) ∈ parseColors sp texts) :
    wellFormedKey k = true ∧ ((parseColors sp texts).map Prod.fst).Nodup :=
  ⟨(parseColors_good sp texts).1 (k, o) hmem, (parseColors_good sp texts).2⟩

/-- C4 witness: `#ABC` and `#aabbcc` collapse into the single well-formed key
`#aabbcc` with cumulative count 2. -/
theorem aggregate_keys_normalized_witness :
    wellFormedKey "#aabbcc" = true ∧
      ((parseColors (fun _ => none) ["#ABC #aabbcc"]).map Prod.fst).Nodup :=
  aggregate_keys_normalized (fun _ => none) ["#ABC #aabbcc"] "#aabbcc"
    ⟨2, ["regex"]⟩ (by decide)

/-- C5: a failing primary page fetch (network error or non-2xx, modelled by
the HTTP oracle returning an error) makes the whole operation fail with the
`ConnectionError` message wrapping the cause; no palette result is returned. -/
theorem primary_fetch_error_fatal (httpGet : String → Except String String)
    (parseHtml : String → Page) (resolve : String → String → String)
    (sp : String → Option (List StructEvent)) (url : String) (n : Nat)
    (e : String) (h : httpGet url = Except.error e) :
    fetchAllCss httpGet parseHtml resolve url =
        Except.error ("URLの取得に失敗しました: " ++ e) ∧
      extractColorsFromUrl httpGet parseHtml resolve sp url n =
        Except.error ("URLの取得に失敗しました: " ++ e) := by
  have h1 : fetchAllCss httpGet parseHtml resolve url =
      Except.error ("URLの取得に失敗しました: " ++ e) := by
    unfold fetchAllCss
    rw [h]
  refine ⟨h1, ?_⟩
  unfold extractColorsFromUrl
  rw [h1]
  rfl

/-- C5 witness: a timed-out primary fetch. -/
theorem primary_fetch_error_fatal_witness :
    (fun _ : String => (Except.error "timeout" : Except String String))
        "http://x" = Except.error "timeout" ∧
      fetchAllCss (fun _ => Except.error "timeout") (fun _ => ⟨[], [], []⟩)
          (fun _ h2 => h2) "http://x" =
        Except.error ("URLの取得に失敗しました: " ++ "timeout") ∧
      extractColorsFromUrl (fun _ => Except.error "timeout")
          (fun _ => ⟨[], [], []⟩) (fun _ h2 => h2) (fun _ => none) "http://x" 20 =
        Except.error ("URLの取得に失敗しました: " ++ "timeout") :=
  ⟨rfl,
   (primary_fetch_error_fatal (fun _ => Except.error "timeout")
      (fun _ => ⟨[], [], []⟩) (fun _ h2 => h2) (fun _ => none) "http://x" 20
      "timeout" rfl).1,
   (primary_fetch_error_fatal (fun _ => Except.error "timeout")
      (fun _ => ⟨[], [], []⟩) (fun _ h2 => h2) (fun _ => none) "http://x" 20
      "timeout" rfl).2⟩

/-- C6: a failure fetching one linked stylesheet is swallowed — that source
is omitted from the CSS-text list while every other source is kept — and the
overall extraction still completes with a palette whenever the primary fetch
succeeded. -/
theorem stylesheet_fetch_error_swallowed (httpGet : String → Except String String)
    (resolve : String → String → String) (url : String) (page : Page)
    (hs1 hs2 : List (Option String)) (href e : String)
    (h : httpGet (resolve url href) = Except.error e) :
    cssFromPage httpGet resolve url
        { page with stylesheetHrefs := hs1 ++ some href :: hs2 } =
      cssFromPage httpGet resolve url { page with stylesheetHrefs := hs1 ++ hs2 } ∧
    ∀ (parseHtml : String → Page) (sp : String → Option (List StructEvent))
      (n : Nat) (html : String), httpGet url = Except.ok html →
        ∃ r, extractColorsFromUrl httpGet parseHtml resolve sp url n =
          Except.ok r := by
  constructor
  · unfold cssFromPage
    simp only [List.filterMap_append, List.filterMap_cons]
    by_cases hhref : href = "" <;> simp [hhref, h]
  · intro parseHtml sp n html hok
    refine ⟨extractFromCss sp
      (cssFromPage httpGet resolve url (parseHtml html)) n, ?_⟩
    unfold extractColorsFromUrl fetchAllCss
    rw [hok]
    rfl

/-- C6 witness: a 404 stylesheet link next to one valid inline style block. -/
theorem stylesheet_fetch_error_swallowed_witness :
    cssFromPage
        (fun u => if u = "badcss" then Except.error "404" else Except.ok "<html>")
        (fun _ h2 => h2) "http://site"
        { styleContents := [some "h1 \x7b color:#111111 \x7d"],
          stylesheetHrefs := [] ++ some "badcss" :: [], inlineStyles := [] } =
      cssFromPage
        (fun u => if u = "badcss" then Except.error "404" else Except.ok "<html>")
        (fun _ h2 => h2) "http://site"
        { styleContents := [some "h1 \x7b color:#111111 \x7d"],
          stylesheetHrefs := [] ++ [], inlineStyles := [] } ∧
    ∃ r, extractColorsFromUrl
        (fun u => if u = "badcss" then Except.error "404" else Except.ok "<html>")
        (fun _ =>
          { styleContents := [some "h1 \x7b color:#111111 \x7d"],
            stylesheetHrefs := [some "badcss"], inlineStyles := [] })
        (fun _ h2 => h2) tinyStruct "http://site" 20 = Except.ok r :=
  ⟨(stylesheet_fetch_error_swallowed
      (fun u => if u = "badcss" then Except.error "404" else Except.ok "<html>")
      (fun _ h2 => h2) "http://site"
      { styleContents := [some "h1 \x7b color:#111111 \x7d"],
        stylesheetHrefs := [], inlineStyles := [] } [] [] "badcss" "404" rfl).1,
   (stylesheet_fetch_error_swallowed
      (fun u => if u = "badcss" then Except.error "404" else Except.ok "<html>")
      (fun _ h2 => h2) "http://site"
      { styleContents := [some "h1 \x7b color:#111111 \x7d"],
        stylesheetHrefs := [], inlineStyles := [] } [] [] "badcss" "404" rfl).2
     (fun _ =>
       { styleContents := [some "h1 \x7b color:#111111 \x7d"],
         stylesheetHrefs := [some "badcss"], inlineStyles := [] })
     tinyStruct 20 "<html>" rfl⟩

/-- C7: a color whose exact brightness `0.299R + 0.587G + 0.114B` equals 240
is not claimed by the unconditional near-white rule — the classifier falls
through to the property-based rules — while brightness 241 is unconditionally
assigned to the background bucket with weight `count`. -/
theorem brightness_240_boundary (hx : String) (o : ColorObservation) :
    (brightness1000 hx = 240000 → assign hx o = propertyAssign hx o) ∧
      (brightness1000 hx = 241000 → assign hx o = (Bucket.bg, o.count)) := by
  constructor
  · intro hb
    simp [assign, hb]
  · intro hb
    simp [assign, hb]

/-- C7 witness: `#f0f0f0` has brightness exactly 240 and falls through;
`#f1f1f1` has brightness exactly 241 and is background. -/
theorem brightness_240_boundary_witness :
    (brightness1000 "#f0f0f0" = 240000 ∧
      assign "#f0f0f0" ⟨1, ["color"]⟩ = propertyAssign "#f0f0f0" ⟨1, ["color"]⟩) ∧
      (brightness1000 "#f1f1f1" = 241000 ∧
        assign "#f1f1f1" ⟨1, []⟩ = (Bucket.bg, 1)) :=
  ⟨⟨by decide, (brightness_240_boundary "#f0f0f0" ⟨1, ["color"]⟩).1 (by decide)⟩,
   ⟨by decide, (brightness_240_boundary "#f1f1f1" ⟨1, []⟩).2 (by decide)⟩⟩

/-- C8 (Scenario A): for the single CSS source
`body{background-color:#ffffff} h1{color:#111111} .btn{background-color:#3366ff}`
the suggested palette has background `#ffffff`, text `#111111` and primary
`#3366ff`; moreover `#ffffff` lands in the background bucket, `#111111` in
the text bucket (brightness 17 < 30), and `#3366ff` in the accent bucket with
double weight as a mid-brightness background color. -/
theorem scenarioA_suggested_palette :
    (extractFromCss tinyStruct
        ["body\x7bbackground-color:#ffffff\x7d h1\x7bcolor:#111111\x7d .btn\x7bbackground-color:#3366ff\x7d"]
        20).suggested.background = "#ffffff" ∧
    (extractFromCss tinyStruct
        ["body\x7bbackground-color:#ffffff\x7d h1\x7bcolor:#111111\x7d .btn\x7bbackground-color:#3366ff\x7d"]
        20).suggested.text = "#111111" ∧
    (extractFromCss tinyStruct
        ["body\x7bbackground-color:#ffffff\x7d h1\x7bcolor:#111111\x7d .btn\x7bbackground-color:#3366ff\x7d"]
        20).suggested.primary = "#3366ff" ∧
    assign "#ffffff" ⟨2, ["background-color", "regex"]⟩ = (Bucket.bg, 2) ∧
    assign "#111111" ⟨2, ["color", "regex"]⟩ = (Bucket.text, 2) ∧
    assign "#3366ff" ⟨2, ["background-color", "regex"]⟩ = (Bucket.accent, 4) := by
  decide

/-- C9: `all_colors` is sorted by descending raw count, holds at most `top_n`
entries, and each entry carries at most 5 members of its color's property
set (with the entry's data coming from that color's observation). -/
theorem allColors_sorted_truncated (m : AggregateMap) (n : Nat) :
    (allColors m n).Pairwise (fun a b => b.count ≤ a.count) ∧
      (allColors m n).length ≤ n ∧
      ∀ e ∈ allColors m n, ∃ o, (e.hex, o) ∈ m ∧ e.count = o.count ∧
        e.properties = o.properties.take 5 ∧ e.properties.length ≤ 5 := by
  refine ⟨?_, ?_, ?_⟩
  · unfold allColors
    rw [List.pairwise_map]
    exact List.Pairwise.sublist (List.take_sublist n _)
      (sorted_sortDescBy (fun e => e.2.count) m)
  · unfold allColors
    rw [List.length_map]
    exact List.length_take_le n _
  · intro e he
    unfold allColors at he
    obtain ⟨x, hx, rfl⟩ := List.mem_map.mp he
    exact ⟨x.2,
      (mem_sortDescBy (fun e2 => e2.2.count) m x).mp (List.take_subset n _ hx),
      rfl, rfl, List.length_take_le 5 _⟩

/-- C9 witness at a one-entry AggregateMap. -/
theorem allColors_sorted_truncated_witness :
    (allColors [("#aabbcc", ⟨2, ["regex"]⟩)] 20).length ≤ 20 ∧
      ∃ o, (("#aabbcc" : String), o) ∈
          ([("#aabbcc", ⟨2, ["regex"]⟩)] : AggregateMap) ∧
        (2 : Nat) = o.count ∧ (["regex"] : List String) = o.properties.take 5 ∧
        (["regex"] : List String).length ≤ 5 :=
  ⟨(allColors_sorted_truncated [("#aabbcc", ⟨2, ["regex"]⟩)] 20).2.1,
   (allColors_sorted_truncated [("#aabbcc", ⟨2, ["regex"]⟩)] 20).2.2
     ⟨"#aabbcc", 2, ["regex"]⟩ (by decide)⟩

/-- C10: each of the five suggested role values is either a hex key present
in the AggregateMap or that role's individual documented default — the
classifier never fabricates a color. -/
theorem suggested_roles_observed_or_default (m : AggregateMap) :
    ((categorize m).background ∈ m.map Prod.fst ∨
        (categorize m).background = "#ffffff") ∧
      ((categorize m).text ∈ m.map Prod.fst ∨ (categorize m).text = "#1f2937") ∧
      ((categorize m).primary ∈ m.map Prod.fst ∨
        (categorize m).primary = "#3b82f6") ∧
      ((categorize m).secondary ∈ m.map Prod.fst ∨
        (categorize m).secondary = "#10b981") ∧
      ((categorize m).accent ∈ m.map Prod.fst ∨
        (categorize m).accent = "#f59e0b") := by
  have hb := buckets_keys m
  have hpick : ∀ (pool : List (String × Nat)) (i : Nat) (d : String),
      (∀ x ∈ pool, x.1 ∈ m.map Prod.fst) →
      (pickAt (sortDescBy Prod.snd pool) i d ∈ m.map Prod.fst ∨
        pickAt (sortDescBy Prod.snd pool) i d = d) := by
    intro pool i d hpool
    rcases pickAt_mem_or_default (sortDescBy Prod.snd pool) i d with ⟨x, hx, heq⟩ | hd
    · rw [heq]
      exact Or.inl (hpool x ((mem_sortDescBy Prod.snd pool x).mp hx))
    · exact Or.inr hd
  exact ⟨hpick (buckets m).1 0 "#ffffff" hb.1,
    hpick (buckets m).2.1 0 "#1f2937" hb.2.1,
    hpick (buckets m).2.2 0 "#3b82f6" hb.2.2,
    hpick (buckets m).2.2 1 "#10b981" hb.2.2,
    hpick (buckets m).2.2 2 "#f59e0b" hb.2.2⟩
